import Mathlib

/-!
Verification of the graph-construction core of the gigagrad tensor IR
(`src/graph.cpp`).

The C++ code is shallowly embedded as follows:
* `dim_t` is `Int`; `Shape`/`Dims` are `List Int`.
* The six node variants (`Tensor`, `Immediate`, `UnaryOp`, `BinaryOp`,
  `ReduceOp`, `ViewOp`) become the inductive `NodeU`; node references held
  by operator variants are arena indices (`Nat`), exactly as a
  `GraphNodeHandle` stores `node_idx` (the owning-graph pointer is implicit
  since every development here works inside a single graph).
* The arena (`Graph::nodes`) is a Lean `List GraphNode`; `AddNode` appends.
* Builder calls that can throw `std::domain_error` become functions
  returning `Except String Nat × Graph`: the second component is the arena
  state when the call returns or throws, matching C++ exception semantics
  where nodes appended before the `throw` stay in the arena.
* C++ `%` on `dim_t` is truncated remainder, embedded as `Int.tmod`;
  C++ `/` is truncated division, embedded as `Int.tdiv`.  A C++ `%` or `/`
  by zero is undefined behavior; it is embedded as an `Except.error`
  (`FixDim` with `mod = 0`), so no theorem can rely on a value there.
* `std::sort` over `dim_t` is embedded as `List.insertionSort (· ≤ ·)`:
  both produce the unique `≤`-sorted arrangement of the input values.
* Immediate scalar payloads (C++ `float`) are embedded as `Rat`; the only
  payload any claim inspects is the exact constant `-1` created by the
  negation rewrite `-1 * x`, which is exact in both representations.
* In `min(x, y) = -max(-x, -y)` the C++ argument evaluation order of
  `max(-x, -y)` is unspecified; the embedding fixes left-to-right
  (`-x` first), and the hand-built comparison term uses the same order.
-/

namespace Gigagrad

abbrev Shape := List Int

abbrev Dims := List Int

inductive UnaryOpType where
  | EXP | LOG | SIN
deriving DecidableEq, Repr

inductive BinaryOpType where
  | ADD | SUB | MUL | DIV | POW | MAX | CMP
deriving DecidableEq, Repr

inductive ReduceOpType where
  | SUM | MAX
deriving DecidableEq, Repr

/-- The six node variants of `GraphNode::U` (graph.cpp, `union U`).
Operator variants store arena indices of their operands. -/
inductive NodeU where
  | tensor : NodeU
  | immediate (value : Rat) : NodeU
  | unaryOp (t : UnaryOpType) (x : Nat) : NodeU
  | binaryOp (t : BinaryOpType) (x : Nat) (y : Nat) : NodeU
  | reduceOp (t : ReduceOpType) (x : Nat) (dims : Dims) (keepdim : Bool) : NodeU
  | viewOp (x : Nat) : NodeU
deriving DecidableEq, Repr

/-- Embedding of `struct GraphNode`: the active variant plus shape and strides. -/
structure GraphNode where
  u : NodeU
  shape : Shape
  strides : Shape
deriving DecidableEq, Repr

/-- Embedding of `struct Graph`: the append-only node arena plus the input index list. -/
structure Graph where
  nodes : List GraphNode
  inputs : List Nat
deriving DecidableEq, Repr

def Graph.empty : Graph := { nodes := [], inputs := [] }

/-- Result of a builder call: the `Except` mirrors C++ `throw
std::domain_error`, and the `Graph` is the arena state at return/throw. -/
abbrev BResult := Except String Nat × Graph

/-- Sequencing of builder calls: on error the state at the throw is kept
(C++ exception unwinding does not roll back arena appends). -/
def bindR (r : BResult) (f : Nat → Graph → BResult) : BResult :=
  match r with
  | (Except.error e, g) => (Except.error e, g)
  | (Except.ok v, g) => f v g

def resultOk (r : BResult) : Bool :=
  match r.1 with
  | Except.ok _ => true
  | Except.error _ => false

/-- Embedding of `FixDim` (graph.cpp:11): `((dim % mod) + mod) % mod` with C++ truncated
`%`.  C++ `%` by zero is undefined behavior, embedded as an error. -/
def FixDim (dim mod : Int) : Except String Int :=
  if mod = 0 then Except.error "division by zero in FixDim"
  else Except.ok (((dim.tmod mod) + mod).tmod mod)

/-- One aligned dimension pair of `GetBroadcastedShape` (graph.cpp:28-35):
the body of the loop for a single `(dim_x, dim_y)` pair.  The in-place
update of `dim_x` is returned as the value instead. -/
def bcastStep (dx dy : Int) : Except String Int :=
  if dx = 1 ∧ dy ≠ 1 then Except.ok dy
  else if dx ≠ 1 ∧ dy = 1 then Except.ok dx
  else if dx = dy then Except.ok dx
  else Except.error "Cannot broadcast incompatible shapes"

/-- Embedding of `GetBroadcastedShape` (graph.cpp:17).  The C++ loop walks the trailing
`smaller.size()` positions of `larger` right-to-left, pairing
`larger[L-1-i]` with `smaller[S-1-i]` and updating `larger` in place; each
position is touched once and the iterations are independent, so this is
the untouched prefix `larger.take k` followed by the pairwise-combined
suffix `larger.drop k` zipped with `smaller` (`k = L - S`). -/
def GetBroadcastedShape (x y : Shape) : Except String Shape :=
  let larger := if y.length < x.length then x else y
  let smaller := if y.length < x.length then y else x
  let k := larger.length - smaller.length
  match ((larger.drop k).zip smaller).mapM (fun p => bcastStep p.1 p.2) with
  | Except.error e => Except.error e
  | Except.ok combined => Except.ok (larger.take k ++ combined)

/-- Embedding of `ComputeStrides` (graph.cpp:40): right-to-left running product, with
every size-1 dimension forced to stride 0.  At position `i` the running
multiplier `cur` equals the product of `shape[i+1..]`. -/
def ComputeStrides : Shape → Shape
  | [] => []
  | d :: rest =>
      (if d = 1 then 0 else rest.foldl (fun a b => a * b) 1) :: ComputeStrides rest

/-- Embedding of `ComputeReducedShape` (graph.cpp:52), taking the input node's shape
directly instead of reading it through `op.x`. -/
def ComputeReducedShape (xshape : Shape) (dims : Dims) (keepdim : Bool) :
    Except String Shape :=
  if dims = [] then
    if keepdim then Except.ok (xshape.map (fun _ => 1)) else Except.ok []
  else if xshape.length < dims.length then
    Except.error "Specified more dims to reduce on than there are dimensions in tensor"
  else
    let marked := dims.foldl (fun s d => s.set d.toNat (-1)) xshape
    if keepdim then Except.ok (marked.map (fun v => if v = -1 then 1 else v))
    else Except.ok (marked.filter (fun v => decide (v ≠ -1)))

/-- Embedding of `GraphNodeHandle::GetNode` (graph.cpp:655): dereferencing an index that
was never produced by this graph is undefined behavior in C++, embedded as
an error. -/
def getNode (x : Nat) (g : Graph) : Except String GraphNode :=
  match g.nodes[x]? with
  | some n => Except.ok n
  | none => Except.error "invalid handle"

/-- Embedding of `Graph::AddNode(GraphNode)` (graph.cpp:636): the handle index is the
arena length before the append. -/
def AddNode (n : GraphNode) (g : Graph) : BResult :=
  (Except.ok g.nodes.length, { g with nodes := g.nodes ++ [n] })

/-- Embedding of `Graph::AddInput(Shape)` (graph.cpp:553): records the new index in the
input list, then appends a `Tensor` node with canonical strides. -/
def AddInput (shape : Shape) (g : Graph) : BResult :=
  AddNode { u := NodeU.tensor, shape := shape, strides := ComputeStrides shape }
    { g with inputs := g.inputs ++ [g.nodes.length] }

/-- Embedding of `Graph::AddNode(Immediate)` (graph.cpp:577): scalar constant with empty
shape and strides. -/
def Immediate (value : Rat) (g : Graph) : BResult :=
  AddNode { u := NodeU.immediate value, shape := [], strides := [] } g

/-- Embedding of `Graph::AddNode(UnaryOp)` (graph.cpp:588): shape and strides copied
verbatim from the input node. -/
def AddUnary (t : UnaryOpType) (x : Nat) (g : Graph) : BResult :=
  match getNode x g with
  | Except.error e => (Except.error e, g)
  | Except.ok nx =>
      AddNode { u := NodeU.unaryOp t x, shape := nx.shape, strides := nx.strides } g

/-- Embedding of `Graph::AddNode(BinaryOp)` (graph.cpp:599): broadcast the operand
shapes (which may throw, before anything is appended), then canonical
strides. -/
def AddBinary (t : BinaryOpType) (x y : Nat) (g : Graph) : BResult :=
  match getNode x g, getNode y g with
  | Except.error e, _ => (Except.error e, g)
  | _, Except.error e => (Except.error e, g)
  | Except.ok nx, Except.ok ny =>
      match GetBroadcastedShape nx.shape ny.shape with
      | Except.error e => (Except.error e, g)
      | Except.ok sh =>
          AddNode { u := NodeU.binaryOp t x y, shape := sh, strides := ComputeStrides sh } g

/-- Embedding of `Graph::AddNode(ReduceOp)` (graph.cpp:612): reduced shape (which may
throw, before anything is appended), then canonical strides. -/
def AddReduce (t : ReduceOpType) (x : Nat) (dims : Dims) (keepdim : Bool)
    (g : Graph) : BResult :=
  match getNode x g with
  | Except.error e => (Except.error e, g)
  | Except.ok nx =>
      match ComputeReducedShape nx.shape dims keepdim with
      | Except.error e => (Except.error e, g)
      | Except.ok sh =>
          AddNode { u := NodeU.reduceOp t x dims keepdim, shape := sh,
                    strides := ComputeStrides sh } g

/-- Embedding of `WrapInReduction` (graph.cpp:88): normalize every axis with `FixDim`
against the input rank, sort ascending, then insert the `ReduceOp`. -/
def WrapInReduction (t : ReduceOpType) (x : Nat) (dims : Dims) (keepdim : Bool)
    (g : Graph) : BResult :=
  match getNode x g with
  | Except.error e => (Except.error e, g)
  | Except.ok nx =>
      match dims.mapM (fun d => FixDim d (nx.shape.length : Int)) with
      | Except.error e => (Except.error e, g)
      | Except.ok fixed =>
          AddReduce t x (fixed.insertionSort (fun a b => a ≤ b)) keepdim g

/-- Embedding of `GraphNodeHandle::sum(Dims, bool)` (graph.cpp:109). -/
def sumDims (x : Nat) (dims : Dims) (keepdim : Bool) (g : Graph) : BResult :=
  WrapInReduction ReduceOpType.SUM x dims keepdim g

/-- Embedding of `GraphNodeHandle::sum(dim_t, bool)` (graph.cpp:104). -/
def sumDim (x : Nat) (d : Int) (keepdim : Bool) (g : Graph) : BResult :=
  sumDims x [d] keepdim g

/-- Embedding of `GraphNodeHandle::sum(bool)` (graph.cpp:97): reduce all dimensions. -/
def sumAll (x : Nat) (keepdim : Bool) (g : Graph) : BResult :=
  match getNode x g with
  | Except.error e => (Except.error e, g)
  | Except.ok nx =>
      sumDims x ((List.range nx.shape.length).map (fun i => (i : Int))) keepdim g

/-- Embedding of `GraphNodeHandle::max(Dims, bool)` (graph.cpp:126). -/
def maxDims (x : Nat) (dims : Dims) (keepdim : Bool) (g : Graph) : BResult :=
  WrapInReduction ReduceOpType.MAX x dims keepdim g

/-- Embedding of `GraphNodeHandle::max(dim_t, bool)` (graph.cpp:121). -/
def maxDim (x : Nat) (d : Int) (keepdim : Bool) (g : Graph) : BResult :=
  maxDims x [d] keepdim g

def shapeProd (s : Shape) : Int := s.foldl (fun a b => a * b) 1

/-- Embedding of `GraphNodeHandle::reshape(Shape)` (graph.cpp:131).  With no `-1`
placeholder the element counts must match; with exactly one, its size is
solved by C++ truncated integer division with no divisibility check (a
division by zero would be undefined behavior, embedded as an error). -/
def reshape (x : Nat) (new_shape : Shape) (g : Graph) : BResult :=
  match getNode x g with
  | Except.error e => (Except.error e, g)
  | Except.ok nx =>
      let num_elements := shapeProd nx.shape
      let num_implicit_dims := new_shape.countP (fun v => v == -1)
      if num_implicit_dims = 0 then
        if shapeProd new_shape ≠ num_elements then
          (Except.error "Reshape number of elements doesnt match that of input tensor", g)
        else
          AddNode { u := NodeU.viewOp x, shape := new_shape,
                    strides := ComputeStrides new_shape } g
      else if 1 < num_implicit_dims then
        (Except.error "Reshape can have at most one implicit dimension", g)
      else
        let denom := new_shape.foldl (fun a v => if v = -1 then a else a * v) 1
        if denom = 0 then (Except.error "division by zero in reshape", g)
        else
          let remaining_dim := num_elements.tdiv denom
          let resolved := new_shape.map (fun v => if v = -1 then remaining_dim else v)
          AddNode { u := NodeU.viewOp x, shape := resolved,
                    strides := ComputeStrides resolved } g

/-- The loop of `GraphNodeHandle::permute` (graph.cpp:181-190): walk the
`(dims[i], shape[i])` pairs, fix each destination axis, reject repeats via
the `uniqueness` vector, and place `shape[i]` at the fixed destination in
`new_shape` (which starts as `shape.size()` zeros). -/
def permuteLoop (n : Nat) : List (Int × Int) → List Bool → Shape → Except String Shape
  | [], _, acc => Except.ok acc
  | (d, s) :: rest, uniq, acc =>
      match FixDim d (n : Int) with
      | Except.error e => Except.error e
      | Except.ok fixed =>
          if uniq.getD fixed.toNat false then Except.error "Found repeated dim in permute"
          else permuteLoop n rest (uniq.set fixed.toNat true) (acc.set fixed.toNat s)

/-- Embedding of `GraphNodeHandle::permute(Dims)` (graph.cpp:173). -/
def permute (x : Nat) (dims : Dims) (g : Graph) : BResult :=
  match getNode x g with
  | Except.error e => (Except.error e, g)
  | Except.ok nx =>
      if dims.length ≠ nx.shape.length then
        (Except.error "Permute not given proper number of dimensions", g)
      else
        match permuteLoop nx.shape.length (dims.zip nx.shape)
            (List.replicate nx.shape.length false)
            (List.replicate nx.shape.length 0) with
        | Except.error e => (Except.error e, g)
        | Except.ok new_shape =>
            AddNode { u := NodeU.viewOp x, shape := new_shape,
                      strides := ComputeStrides new_shape } g

/-- Embedding of `GraphNodeHandle::matmul` (graph.cpp:208): pad rank-1 operands, append
a unit axis to `x`, insert a unit axis before `y`'s last two axes, check
the inner dimensions, then reshape / elementwise multiply / sum axis `-2`. -/
def matmul (x y : Nat) (g : Graph) : BResult :=
  match getNode x g, getNode y g with
  | Except.error e, _ => (Except.error e, g)
  | _, Except.error e => (Except.error e, g)
  | Except.ok nx, Except.ok ny =>
      let x_shape0 := if nx.shape.length = 1 then 1 :: nx.shape else nx.shape
      let y_shape0 := if ny.shape.length = 1 then ny.shape ++ [1] else ny.shape
      if x_shape0.length < 2 ∨ y_shape0.length < 2 then
        (Except.error "Shapes must be at least of size 2 for matmul", g)
      else
        let x_shape := x_shape0 ++ [1]
        let y_shape := y_shape0.take (y_shape0.length - 2) ++
          1 :: y_shape0.drop (y_shape0.length - 2)
        if x_shape.getD (x_shape.length - 2) 0 ≠ y_shape.getD (y_shape.length - 2) 0 then
          (Except.error "Incompatible shapes in matmul", g)
        else
          bindR (reshape x x_shape g) (fun xr g1 =>
            bindR (reshape y y_shape g1) (fun yr g2 =>
              bindR (AddBinary BinaryOpType.MUL xr yr g2) (fun m g3 =>
                sumDim m (-2) false g3)))

/-- Embedding of `operator-(GraphNodeHandle)` (graph.cpp:258): the rewrite `-1 * x`,
which first promotes the scalar to an `Immediate` node (graph.cpp:303). -/
def neg (x : Nat) (g : Graph) : BResult :=
  bindR (Immediate (-1) g) (fun i g1 => AddBinary BinaryOpType.MUL i x g1)

/-- Embedding of `max(GraphNodeHandle, GraphNodeHandle)` (graph.cpp:420). -/
def maxBinary (x y : Nat) (g : Graph) : BResult :=
  AddBinary BinaryOpType.MAX x y g

/-- Embedding of `min(GraphNodeHandle, GraphNodeHandle)` (graph.cpp:443): the rewrite
`-max(-x, -y)`. -/
def minBinary (x y : Nat) (g : Graph) : BResult :=
  bindR (neg x g) (fun nx g1 =>
    bindR (neg y g1) (fun ny g2 =>
      bindR (maxBinary nx ny g2) (fun m g3 => neg m g3)))

/-- Modelled from the spec (section 4.2, `BroadcastShapes`): the per-pair
rule in the spec's words — "if one side is 1, take the other; if both
equal, take that value; otherwise it is a hard shape-incompatibility
error". -/
def specCombine (dx dy : Int) : Except String Int :=
  if dx = 1 then Except.ok dy
  else if dy = 1 then Except.ok dx
  else if dx = dy then Except.ok dx
  else Except.error "Cannot broadcast incompatible shapes"

/-- Modelled from the spec (section 4.2): right-align the two shapes by
choosing the longer as the base; the leading unmatched dimensions are kept
as-is from the longer shape, and each aligned pair is combined by
`specCombine`. -/
def BroadcastSpec (x y : Shape) : Except String Shape :=
  let longer := if y.length < x.length then x else y
  let shorter := if y.length < x.length then y else x
  let k := longer.length - shorter.length
  match ((longer.drop k).zip shorter).mapM (fun p => specCombine p.1 p.2) with
  | Except.error e => Except.error e
  | Except.ok aligned => Except.ok (longer.take k ++ aligned)

/-- The hand-built node sequence for `-(max(-x, -y))` with negation spelled
out as its rewrite `-1 * z`: append `Immediate (-1)`, then `MUL` with the
immediate on the left, for each negation, and a `MAX` node in between. -/
def handBuiltMin (x y : Nat) (g : Graph) : BResult :=
  bindR (Immediate (-1) g) (fun i1 g1 =>
    bindR (AddBinary BinaryOpType.MUL i1 x g1) (fun nx g2 =>
      bindR (Immediate (-1) g2) (fun i2 g3 =>
        bindR (AddBinary BinaryOpType.MUL i2 y g3) (fun ny g4 =>
          bindR (AddBinary BinaryOpType.MAX nx ny g4) (fun m g5 =>
            bindR (Immediate (-1) g5) (fun i3 g6 =>
              AddBinary BinaryOpType.MUL i3 m g6))))))

/-- Arena indices referenced by a node variant. -/
def nodeRefs : NodeU → List Nat
  | NodeU.tensor => []
  | NodeU.immediate _ => []
  | NodeU.unaryOp _ x => [x]
  | NodeU.binaryOp _ x y => [x, y]
  | NodeU.reduceOp _ x _ _ => [x]
  | NodeU.viewOp x => [x]

/-- Every node in the arena references only strictly smaller indices. -/
def RefsBelow (ns : List GraphNode) : Prop :=
  ∀ (i : Nat) (node : GraphNode), ns[i]? = some node → ∀ r ∈ nodeRefs node.u, r < i

/-- Every node in the arena carries the canonical strides of its shape. -/
def StridesCanon (ns : List GraphNode) : Prop :=
  ∀ (i : Nat) (node : GraphNode), ns[i]? = some node →
    node.strides = ComputeStrides node.shape

/-- Graphs reachable through the public entry points.  Every public builder
call of graph.cpp factors into these primitive arena insertions (the
derived operators `min`, `cos`, `sigmoid`, the comparisons, `matmul`,
`transpose` and the scalar-promoting overloads are definitionally
compositions of them, each step feeding handles returned by earlier steps,
which are always valid indices).  The post-state `.2` is used so that the
states left behind by throwing calls are covered as well. -/
inductive Built : Graph → Prop where
  | empty : Built Graph.empty
  | addInput (g : Graph) (shape : Shape) :
      Built g → Built (AddInput shape g).2
  | immediate (g : Graph) (v : Rat) :
      Built g → Built (Immediate v g).2
  | unary (g : Graph) (t : UnaryOpType) (x : Nat) :
      x < g.nodes.length → Built g → Built (AddUnary t x g).2
  | binary (g : Graph) (t : BinaryOpType) (x y : Nat) :
      x < g.nodes.length → y < g.nodes.length → Built g →
      Built (AddBinary t x y g).2
  | reduce (g : Graph) (t : ReduceOpType) (x : Nat) (dims : Dims) (keepdim : Bool) :
      x < g.nodes.length → Built g → Built (WrapInReduction t x dims keepdim g).2
  | reshapeStep (g : Graph) (x : Nat) (shape : Shape) :
      x < g.nodes.length → Built g → Built (reshape x shape g).2
  | permuteStep (g : Graph) (x : Nat) (dims : Dims) :
      x < g.nodes.length → Built g → Built (permute x dims g).2

/-- Two incompatible inputs (`[2,3]` and `[4]`): the graph used to exhibit
arena growth on a failing derived call. -/
def cexG : Graph := (AddInput [4] (AddInput [2, 3] Graph.empty).2).2

/-- Two compatible `[2,3]` inputs plus their `ADD` node: a small graph
reachable through `Built`. -/
def wG : Graph :=
  (AddBinary BinaryOpType.ADD 0 1 (AddInput [2, 3] (AddInput [2, 3] Graph.empty).2).2).2

/-- Graph `wG` extended with a `UnaryOp` node copying node 2's shape/strides. -/
def wGU : Graph := (AddUnary UnaryOpType.EXP 2 wG).2

/-- A single input of shape `[2,3,4]`, for the reshape/permute examples. -/
def gC2 : Graph := (AddInput [2, 3, 4] Graph.empty).2

/-- Inputs `[3]` and `[3,7]`, for the vector matmul example. -/
def gC3 : Graph := (AddInput [3, 7] (AddInput [3] Graph.empty).2).2

/-- A single scalar node (shape `[]`), for the rank-0 reduction example. -/
def gScalar : Graph := (Immediate 0 Graph.empty).2

theorem bindR_assoc (r : BResult) (f k : Nat → Graph → BResult) :
    bindR (bindR r f) k = bindR r (fun v g => bindR (f v g) k) := by
  rcases r with ⟨e, g⟩
  cases e <;> rfl

/-- C1 counterexample: on inputs of shapes `[2,3]` and `[4]`, `min(x, y)`
fails with the broadcast error, yet the arena grew from 2 to 6 nodes: the
two `Immediate(-1)` and two `MUL` nodes of the negation rewrites were
appended before the `MAX` primitive threw. -/
theorem min_appends_nodes_on_failure :
    resultOk (minBinary 0 1 cexG) = false ∧
    cexG.nodes.length = 2 ∧
    (minBinary 0 1 cexG).2.nodes.length = 6 :=
  ⟨rfl, rfl, rfl⟩

/-- C2 counterexample: `permute [2,0,1]` on an input of shape `[2,3,4]`
yields shape `[3,4,2]`, not the `[4,2,3]` the claim states. -/
theorem permute_numpy_convention_fails :
    (permute 0 [2, 0, 1] gC2).1 = Except.ok 1 ∧
    ((permute 0 [2, 0, 1] gC2).2.nodes[1]?.map GraphNode.shape) = some [3, 4, 2] ∧
    ¬ ((permute 0 [2, 0, 1] gC2).2.nodes[1]?.map GraphNode.shape) = some [4, 2, 3] :=
  ⟨rfl, rfl, by decide⟩

/-- C2 amended: `permute [2,0,1]` on shape `[2,3,4]` succeeds and returns a
`ViewOp` node of shape `[3,4,2]` with canonical strides — the code places
source axis `i` at destination index `dims[i]` (the inverse of the numpy
convention). -/
theorem permute_places_source_axis_at_dest :
    (permute 0 [2, 0, 1] gC2).1 = Except.ok 1 ∧
    (permute 0 [2, 0, 1] gC2).2.nodes[1]? =
      some { u := NodeU.viewOp 0, shape := [3, 4, 2], strides := [8, 2, 1] } :=
  ⟨rfl, rfl⟩

/-- C3 counterexample: `matmul` of a `[3]` vector with a `[3,7]` matrix
succeeds, but the result node's shape is `[1,7]`, not `[7]`. -/
theorem matmul_vector_shape_not_squeezed :
    resultOk (matmul 0 1 gC3) = true ∧
    ((matmul 0 1 gC3).2.nodes[5]?.map GraphNode.shape) = some [1, 7] ∧
    ¬ ((matmul 0 1 gC3).2.nodes[5]?.map GraphNode.shape) = some [7] :=
  ⟨rfl, rfl, by decide⟩

/-- C3 amended: `matmul` of `x:[3]` with `y:[3,7]` succeeds with result
shape `[1,7]`: the unit axis introduced by padding the vector is retained;
only the reduced inner axis is removed by the `sum` along axis `-2`. -/
theorem matmul_vector_keeps_unit_axis :
    (matmul 0 1 gC3).1 = Except.ok 5 ∧
    (matmul 0 1 gC3).2.nodes[5]? =
      some { u := NodeU.reduceOp ReduceOpType.SUM 4 [1] false,
             shape := [1, 7], strides := [0, 1] } :=
  ⟨rfl, rfl⟩

/-- C4 counterexample: `sum` with dims `[0,0]` on a `[2,3]` input
constructs a `ReduceOp` node whose stored dims list is `[0,0]`, which
contains a duplicate index. -/
theorem reduce_dims_can_duplicate :
    (sumDims 0 [0, 0] false wG).1 = Except.ok 3 ∧
    (sumDims 0 [0, 0] false wG).2.nodes[3]? =
      some { u := NodeU.reduceOp ReduceOpType.SUM 0 [0, 0] false,
             shape := [3], strides := [1] } ∧
    ¬ ([0, 0] : Dims).Nodup :=
  ⟨rfl, rfl, by decide⟩

/-- C5 counterexample: reshaping the 24-element input `[2,3,4]` to `[5,-1]`
does not fail: it succeeds and produces a `ViewOp` of shape `[5,4]`. -/
theorem reshape_implicit_no_divisibility_check :
    resultOk (reshape 0 [5, -1] gC2) = true ∧
    (reshape 0 [5, -1] gC2).2.nodes[1]? =
      some { u := NodeU.viewOp 0, shape := [5, 4], strides := [4, 1] } :=
  ⟨rfl, rfl⟩

/-- C5 amended: reshape with one `-1` placeholder performs no divisibility
check: the placeholder is solved by truncating integer division, so
reshaping `[2,3,4]` (24 elements) to `[5,-1]` succeeds with shape `[5,4]`,
silently changing the element count. -/
theorem reshape_implicit_truncates :
    (reshape 0 [5, -1] gC2).1 = Except.ok 1 ∧
    ((reshape 0 [5, -1] gC2).2.nodes[1]?.map GraphNode.shape) = some [5, 4] ∧
    shapeProd [5, 4] ≠ shapeProd [2, 3, 4] :=
  ⟨rfl, rfl, by decide⟩

/-- C8: for every pair of handles on the same graph, `min(x, y)` produces
exactly the same result and appends exactly the same node sequence as
hand-building `-(max(-x, -y))` with negation spelled out as
`Immediate(-1)` followed by `MUL`. -/
theorem min_is_neg_max_neg (x y : Nat) (g : Graph) :
    minBinary x y g = handBuiltMin x y g := by
  simp only [minBinary, neg, maxBinary, handBuiltMin, bindR_assoc]

theorem bcastStep_eq_specCombine (dx dy : Int) :
    bcastStep dx dy = specCombine dx dy := by
  unfold bcastStep specCombine
  by_cases h1 : dx = 1 <;> by_cases h2 : dy = 1 <;> simp [h1, h2]

theorem mapM_bcast_eq (l : List (Int × Int)) :
    l.mapM (fun p => bcastStep p.1 p.2) = l.mapM (fun p => specCombine p.1 p.2) := by
  induction l with
  | nil => rfl
  | cons a l ih => simp [List.mapM_cons, bcastStep_eq_specCombine, ih]

/-- C6: `GetBroadcastedShape` agrees everywhere with the spec's description
(longer shape's length, leading dims from the longer shape, each
right-aligned pair combined by the one-is-1 / both-equal / error rule);
in particular `[4,1,3]` with `[1,5,3]` gives `[4,5,3]` and `[2,3]` with
`[4]` is a hard error. -/
theorem broadcast_matches_spec :
    (∀ x y : Shape, GetBroadcastedShape x y = BroadcastSpec x y) ∧
    GetBroadcastedShape [4, 1, 3] [1, 5, 3] = Except.ok [4, 5, 3] ∧
    GetBroadcastedShape [2, 3] [4] = Except.error "Cannot broadcast incompatible shapes" := by
  refine ⟨fun x y => ?_, rfl, rfl⟩
  unfold GetBroadcastedShape BroadcastSpec
  simp only [mapM_bcast_eq]

theorem tmod_add_self_nonneg (d : Int) (r : Nat) (hr : 1 ≤ r) :
    0 ≤ d.tmod (r : Int) + (r : Int) := by
  cases d with
  | ofNat n =>
      have h1 : 0 ≤ (Int.ofNat n).tmod (r : Int) :=
        Int.tmod_nonneg _ (Int.ofNat_nonneg n)
      have h2 : (0 : Int) ≤ (r : Int) := Int.ofNat_nonneg r
      omega
  | negSucc n =>
      have heq : (Int.negSucc n).tmod (r : Int) = -(((n + 1) % r : Nat) : Int) := rfl
      have hlt : (n + 1) % r < r := Nat.mod_lt _ (by omega)
      rw [heq]
      omega

theorem fixDim_pos_eq_emod (d : Int) (r : Nat) (hr : 1 ≤ r) :
    FixDim d (r : Int) = Except.ok (d % (r : Int)) := by
  have hr0 : (r : Int) ≠ 0 := by
    have : (1 : Int) ≤ (r : Int) := by exact_mod_cast hr
    omega
  unfold FixDim
  rw [if_neg hr0]
  have h0 : 0 ≤ d.tmod (r : Int) + (r : Int) := tmod_add_self_nonneg d r hr
  rw [Int.tmod_eq_emod h0 (Int.ofNat_nonneg r)]
  rw [Int.add_emod_self]
  rw [Int.tmod_def]
  have hsub : d - (r : Int) * d.tdiv (r : Int) = d + (r : Int) * (-(d.tdiv (r : Int))) := by
    ring
  rw [hsub, Int.add_mul_emod_self_left]

theorem neg_one_emod_cast (r : Nat) (hr : 1 ≤ r) :
    (-1 : Int) % (r : Int) = (r : Int) - 1 := by
  have hr1 : (1 : Int) ≤ (r : Int) := by exact_mod_cast hr
  have h : (-1 : Int) = ((r : Int) - 1) + (r : Int) * (-1) := by ring
  rw [h, Int.add_mul_emod_self_left, Int.emod_eq_of_lt (by omega) (by omega)]

/-- C10: `sum`/`max` with an explicit axis is well-defined only for inputs
of rank at least 1: `FixDim`'s `((dim % rank) + rank) % rank` is a modulo
by zero for a rank-0 input (undefined behavior, embedded as an error, and
`WrapInReduction` on a scalar node propagates it); for rank at least 1 the
normalized axis always lies in `[0, rank)`, with `-1` mapping to
`rank - 1`. -/
theorem fixdim_requires_positive_rank :
    (∀ d : Int, FixDim d 0 = Except.error "division by zero in FixDim") ∧
    (∀ (d : Int) (r : Nat), 1 ≤ r →
      FixDim d (r : Int) = Except.ok (d % (r : Int)) ∧
      0 ≤ d % (r : Int) ∧ d % (r : Int) < (r : Int)) ∧
    (∀ r : Nat, 1 ≤ r → FixDim (-1) (r : Int) = Except.ok ((r : Int) - 1)) ∧
    (∀ (g : Graph) (t : ReduceOpType) (x : Nat) (d : Int) (kd : Bool) (nx : GraphNode),
      g.nodes[x]? = some nx → nx.shape = [] →
      WrapInReduction t x [d] kd g = (Except.error "division by zero in FixDim", g)) := by
  have hr0 : ∀ (r : Nat), 1 ≤ r → ((r : Int) ≠ 0 ∧ 0 < (r : Int)) := by
    intro r hr
    have : (1 : Int) ≤ (r : Int) := by exact_mod_cast hr
    omega
  refine ⟨fun d => rfl, fun d r hr => ?_, fun r hr => ?_, fun g t x d kd nx hget hsh => ?_⟩
  · exact ⟨fixDim_pos_eq_emod d r hr, Int.emod_nonneg d (hr0 r hr).1,
      Int.emod_lt_of_pos d (hr0 r hr).2⟩
  · rw [fixDim_pos_eq_emod (-1) r hr, neg_one_emod_cast r hr]
  · simp only [WrapInReduction, getNode, hget, hsh]
    simp [List.mapM.loop, FixDim]

/-- Witness for C10 at concrete inputs: rank 0 is an error, `FixDim (-2) 3
= 1`, `FixDim (-1) 4 = 3`, and `sum` along axis 0 of a scalar node fails
leaving the graph unchanged. -/
theorem fixdim_requires_positive_rank_witness :
    FixDim 5 0 = Except.error "division by zero in FixDim" ∧
    FixDim (-2) ((3 : Nat) : Int) = Except.ok 1 ∧
    FixDim (-1) ((4 : Nat) : Int) = Except.ok 3 ∧
    WrapInReduction ReduceOpType.SUM 0 [0] false gScalar =
      (Except.error "division by zero in FixDim", gScalar) := by
  refine ⟨fixdim_requires_positive_rank.1 5, ?_, ?_, ?_⟩
  · rw [(fixdim_requires_positive_rank.2.1 (-2) 3 (by omega)).1]
    have h2 : (-2 : Int) % ((3 : Nat) : Int) = 1 := by decide
    rw [h2]
  · rw [fixdim_requires_positive_rank.2.2.1 4 (by omega)]
    have h3 : ((4 : Nat) : Int) - 1 = 3 := by decide
    rw [h3]
  · exact fixdim_requires_positive_rank.2.2.2 gScalar ReduceOpType.SUM 0 0 false
      { u := NodeU.immediate 0, shape := [], strides := [] } rfl rfl

theorem getNode_ok_iff {x : Nat} {g : Graph} {nx : GraphNode} :
    getNode x g = Except.ok nx ↔ g.nodes[x]? = some nx := by
  unfold getNode
  cases h : g.nodes[x]? with
  | some m => simp
  | none => simp

theorem AddInput_state (sh : Shape) (g : Graph) :
    AddInput sh g = (Except.ok g.nodes.length,
      { nodes := g.nodes ++
          [{ u := NodeU.tensor, shape := sh, strides := ComputeStrides sh }],
        inputs := g.inputs ++ [g.nodes.length] }) := rfl

theorem Immediate_state (v : Rat) (g : Graph) :
    Immediate v g = (Except.ok g.nodes.length,
      { g with nodes := g.nodes ++
          [{ u := NodeU.immediate v, shape := [], strides := [] }] }) := rfl

theorem AddUnary_state (t : UnaryOpType) (x : Nat) (g : Graph) :
    (AddUnary t x g).2 = g ∨
    ∃ nx, getNode x g = Except.ok nx ∧
      AddUnary t x g = (Except.ok g.nodes.length,
        { g with nodes := g.nodes ++
            [{ u := NodeU.unaryOp t x, shape := nx.shape, strides := nx.strides }] }) := by
  cases h : getNode x g with
  | error e => left; simp [AddUnary, h]
  | ok nx => right; exact ⟨nx, rfl, by simp [AddUnary, h, AddNode]⟩

theorem AddBinary_state (t : BinaryOpType) (x y : Nat) (g : Graph) :
    (AddBinary t x y g).2 = g ∨
    ∃ sh, AddBinary t x y g = (Except.ok g.nodes.length,
      { g with nodes := g.nodes ++
          [{ u := NodeU.binaryOp t x y, shape := sh, strides := ComputeStrides sh }] }) := by
  cases hx : getNode x g with
  | error e =>
      cases hy : getNode y g with
      | error e2 => left; simp [AddBinary, hx, hy]
      | ok ny => left; simp [AddBinary, hx, hy]
  | ok nx =>
      cases hy : getNode y g with
      | error e => left; simp [AddBinary, hx, hy]
      | ok ny =>
          cases hb : GetBroadcastedShape nx.shape ny.shape with
          | error e => left; simp [AddBinary, hx, hy, hb]
          | ok sh => right; exact ⟨sh, by simp [AddBinary, hx, hy, hb, AddNode]⟩

theorem WrapInReduction_state (t : ReduceOpType) (x : Nat) (dims : Dims)
    (kd : Bool) (g : Graph) :
    (WrapInReduction t x dims kd g).2 = g ∨
    ∃ d2 sh, WrapInReduction t x dims kd g = (Except.ok g.nodes.length,
      { g with nodes := g.nodes ++
          [{ u := NodeU.reduceOp t x d2 kd, shape := sh, strides := ComputeStrides sh }] }) := by
  cases h1 : getNode x g with
  | error e => left; simp [WrapInReduction, h1]
  | ok nx =>
      cases h2 : dims.mapM (fun d => FixDim d (nx.shape.length : Int)) with
      | error e =>
          left
          simp only [List.mapM] at h2
          simp [WrapInReduction, h1, h2]
      | ok fixed =>
          cases h3 : ComputeReducedShape nx.shape
              (fixed.insertionSort (fun a b => a ≤ b)) kd with
          | error e =>
              left
              simp only [List.mapM] at h2
              simp [WrapInReduction, AddReduce, h1, h2, h3]
          | ok sh =>
              right
              refine ⟨fixed.insertionSort (fun a b => a ≤ b), sh, ?_⟩
              simp only [List.mapM] at h2
              simp [WrapInReduction, AddReduce, h1, h2, h3, AddNode]

theorem reshape_state (x : Nat) (sh : Shape) (g : Graph) :
    (reshape x sh g).2 = g ∨
    ∃ sh2, reshape x sh g = (Except.ok g.nodes.length,
      { g with nodes := g.nodes ++
          [{ u := NodeU.viewOp x, shape := sh2, strides := ComputeStrides sh2 }] }) := by
  cases h1 : getNode x g with
  | error e => left; simp [reshape, h1]
  | ok nx =>
      by_cases h2 : (sh.countP (fun v => v == -1)) = 0
      · by_cases h3 : shapeProd sh ≠ shapeProd nx.shape
        · left; simp [reshape, h1, h2, h3]
        · right
          exact ⟨sh, by simp [reshape, h1, h2, h3, AddNode]⟩
      · by_cases h4 : 1 < sh.countP (fun v => v == -1)
        · left; simp [reshape, h1, h2, h4]
        · by_cases h5 : (sh.foldl (fun a v => if v = -1 then a else a * v) 1) = 0
          · left; simp [reshape, h1, h2, h4, h5]
          · right
            refine ⟨sh.map (fun v => if v = -1 then
              (shapeProd nx.shape).tdiv
                (sh.foldl (fun a v => if v = -1 then a else a * v) 1) else v), ?_⟩
            simp [reshape, h1, h2, h4, h5, AddNode]

theorem permute_state (x : Nat) (dims : Dims) (g : Graph) :
    (permute x dims g).2 = g ∨
    ∃ sh2, permute x dims g = (Except.ok g.nodes.length,
      { g with nodes := g.nodes ++
          [{ u := NodeU.viewOp x, shape := sh2, strides := ComputeStrides sh2 }] }) := by
  cases h1 : getNode x g with
  | error e => left; simp [permute, h1]
  | ok nx =>
      by_cases h2 : dims.length ≠ nx.shape.length
      · left; simp [permute, h1, h2]
      · cases h3 : permuteLoop nx.shape.length (dims.zip nx.shape)
            (List.replicate nx.shape.length false)
            (List.replicate nx.shape.length 0) with
        | error e => left; simp [permute, h1, h2, h3]
        | ok ns => right; exact ⟨ns, by simp [permute, h1, h2, h3, AddNode]⟩

theorem refsBelow_append (ns : List GraphNode) (n : GraphNode)
    (h : RefsBelow ns) (hn : ∀ r ∈ nodeRefs n.u, r < ns.length) :
    RefsBelow (ns ++ [n]) := by
  intro i node hget r hr
  rcases Nat.lt_or_ge i ns.length with hi | hi
  · rw [List.getElem?_append, if_pos hi] at hget
    exact h i node hget r hr
  · rw [List.getElem?_append_right hi] at hget
    have hlt : i - ns.length < 1 := by
      by_contra hc
      push_neg at hc
      rw [List.getElem?_eq_none (by simpa using hc)] at hget
      cases hget
    have h0 : i - ns.length = 0 := by omega
    rw [h0] at hget
    simp only [List.getElem?_cons_zero, Option.some.injEq] at hget
    subst hget
    have := hn r hr
    omega

theorem stridesCanon_append (ns : List GraphNode) (n : GraphNode)
    (h : StridesCanon ns) (hn : n.strides = ComputeStrides n.shape) :
    StridesCanon (ns ++ [n]) := by
  intro i node hget
  rcases Nat.lt_or_ge i ns.length with hi | hi
  · rw [List.getElem?_append, if_pos hi] at hget
    exact h i node hget
  · rw [List.getElem?_append_right hi] at hget
    have hlt : i - ns.length < 1 := by
      by_contra hc
      push_neg at hc
      rw [List.getElem?_eq_none (by simpa using hc)] at hget
      cases hget
    have h0 : i - ns.length = 0 := by omega
    rw [h0] at hget
    simp only [List.getElem?_cons_zero, Option.some.injEq] at hget
    subst hget
    exact hn

theorem built_refsBelow (g : Graph) (hb : Built g) : RefsBelow g.nodes := by
  induction hb with
  | empty =>
      intro i node hget r hr
      simp [Graph.empty] at hget
  | addInput g2 sh hb2 ih =>
      rw [AddInput_state]
      exact refsBelow_append _ _ ih (by intro r hr; simp [nodeRefs] at hr)
  | immediate g2 v hb2 ih =>
      rw [Immediate_state]
      exact refsBelow_append _ _ ih (by intro r hr; simp [nodeRefs] at hr)
  | unary g2 t x hx hb2 ih =>
      rcases AddUnary_state t x g2 with h | ⟨nx, hget, h⟩
      · rw [h]; exact ih
      · rw [h]
        exact refsBelow_append _ _ ih (by intro r hr; simp [nodeRefs] at hr; omega)
  | binary g2 t x y hx hy hb2 ih =>
      rcases AddBinary_state t x y g2 with h | ⟨sh, h⟩
      · rw [h]; exact ih
      · rw [h]
        exact refsBelow_append _ _ ih (by intro r hr; simp [nodeRefs] at hr; omega)
  | reduce g2 t x dims kd hx hb2 ih =>
      rcases WrapInReduction_state t x dims kd g2 with h | ⟨d2, sh, h⟩
      · rw [h]; exact ih
      · rw [h]
        exact refsBelow_append _ _ ih (by intro r hr; simp [nodeRefs] at hr; omega)
  | reshapeStep g2 x sh hx hb2 ih =>
      rcases reshape_state x sh g2 with h | ⟨sh2, h⟩
      · rw [h]; exact ih
      · rw [h]
        exact refsBelow_append _ _ ih (by intro r hr; simp [nodeRefs] at hr; omega)
  | permuteStep g2 x dims hx hb2 ih =>
      rcases permute_state x dims g2 with h | ⟨sh2, h⟩
      · rw [h]; exact ih
      · rw [h]
        exact refsBelow_append _ _ ih (by intro r hr; simp [nodeRefs] at hr; omega)

/-- C7: in every graph built through the public entry points, every node
reference held by a `UnaryOp`/`BinaryOp`/`ReduceOp`/`ViewOp` node refers to
an arena index strictly less than the referencing node's own index, so the
graph is acyclic by construction. -/
theorem built_graph_acyclic (g : Graph) (hb : Built g) (i : Nat) (node : GraphNode)
    (hget : g.nodes[i]? = some node) (r : Nat) (hr : r ∈ nodeRefs node.u) : r < i :=
  built_refsBelow g hb i node hget r hr

theorem wG_built : Built wG :=
  Built.binary _ BinaryOpType.ADD 0 1 (by decide) (by decide)
    (Built.addInput _ _ (Built.addInput _ _ Built.empty))

/-- Witness for C7: in the concrete built graph `wG`, the `ADD` node at
index 2 references node 1, and indeed `1 < 2`. -/
theorem built_graph_acyclic_witness : 1 < 2 :=
  built_graph_acyclic wG wG_built 2
    { u := NodeU.binaryOp BinaryOpType.ADD 0 1, shape := [2, 3], strides := [3, 1] }
    rfl 1 (by simp [nodeRefs])

theorem built_stridesCanon (g : Graph) (hb : Built g) : StridesCanon g.nodes := by
  induction hb with
  | empty =>
      intro i node hget
      simp [Graph.empty] at hget
  | addInput g2 sh hb2 ih =>
      rw [AddInput_state]
      exact stridesCanon_append _ _ ih rfl
  | immediate g2 v hb2 ih =>
      rw [Immediate_state]
      exact stridesCanon_append _ _ ih rfl
  | unary g2 t x hx hb2 ih =>
      rcases AddUnary_state t x g2 with h | ⟨nx, hget, h⟩
      · rw [h]; exact ih
      · rw [h]
        exact stridesCanon_append _ _ ih (ih x nx (getNode_ok_iff.mp hget))
  | binary g2 t x y hx hy hb2 ih =>
      rcases AddBinary_state t x y g2 with h | ⟨sh, h⟩
      · rw [h]; exact ih
      · rw [h]
        exact stridesCanon_append _ _ ih rfl
  | reduce g2 t x dims kd hx hb2 ih =>
      rcases WrapInReduction_state t x dims kd g2 with h | ⟨d2, sh, h⟩
      · rw [h]; exact ih
      · rw [h]
        exact stridesCanon_append _ _ ih rfl
  | reshapeStep g2 x sh hx hb2 ih =>
      rcases reshape_state x sh g2 with h | ⟨sh2, h⟩
      · rw [h]; exact ih
      · rw [h]
        exact stridesCanon_append _ _ ih rfl
  | permuteStep g2 x dims hx hb2 ih =>
      rcases permute_state x dims g2 with h | ⟨sh2, h⟩
      · rw [h]; exact ih
      · rw [h]
        exact stridesCanon_append _ _ ih rfl

/-- C9: in every graph built through the public entry points, every node's
strides vector equals the canonical strides of its own shape (right-to-left
running product with size-1 dimensions forced to stride 0); `UnaryOp` nodes
copy the input's shape and strides verbatim, which preserves the
invariant. -/
theorem built_strides_canonical (g : Graph) (hb : Built g) (i : Nat)
    (node : GraphNode) (hget : g.nodes[i]? = some node) :
    node.strides = ComputeStrides node.shape :=
  built_stridesCanon g hb i node hget

theorem wGU_built : Built wGU :=
  Built.unary _ UnaryOpType.EXP 2 (by decide) wG_built

/-- Witness for C9: in the concrete built graph `wGU`, the `UnaryOp` node
at index 3 (which copied node 2's shape `[2,3]` and strides `[3,1]`)
carries exactly the canonical strides of its shape. -/
theorem built_strides_canonical_witness : ([3, 1] : Shape) = ComputeStrides [2, 3] :=
  built_strides_canonical wGU wGU_built 3
    { u := NodeU.unaryOp UnaryOpType.EXP 2, shape := [2, 3], strides := [3, 1] } rfl

/-- C1 amended: every primitive node-creating call (`AddNode` for
`UnaryOp`/`BinaryOp`/`ReduceOp` via `WrapInReduction`, `reshape`,
`permute`) that raises a shape/domain error leaves the arena exactly as it
was — the failing node is never appended.  (Derived operators such as
`min`, `<=`, `>=` may append intermediate nodes before the primitive that
fails, so the arena can grow on a failing derived call; see the
counterexample.) -/
theorem primitive_error_leaves_arena (g : Graph) :
    (∀ t x, resultOk (AddUnary t x g) = false → (AddUnary t x g).2 = g) ∧
    (∀ t x y, resultOk (AddBinary t x y g) = false → (AddBinary t x y g).2 = g) ∧
    (∀ t x dims kd, resultOk (WrapInReduction t x dims kd g) = false →
      (WrapInReduction t x dims kd g).2 = g) ∧
    (∀ x sh, resultOk (reshape x sh g) = false → (reshape x sh g).2 = g) ∧
    (∀ x dims, resultOk (permute x dims g) = false → (permute x dims g).2 = g) := by
  refine ⟨?_, ?_, ?_, ?_, ?_⟩
  · intro t x h
    rcases AddUnary_state t x g with h2 | ⟨nx, _, h2⟩
    · exact h2
    · rw [h2] at h; simp [resultOk] at h
  · intro t x y h
    rcases AddBinary_state t x y g with h2 | ⟨sh, h2⟩
    · exact h2
    · rw [h2] at h; simp [resultOk] at h
  · intro t x dims kd h
    rcases WrapInReduction_state t x dims kd g with h2 | ⟨d2, sh, h2⟩
    · exact h2
    · rw [h2] at h; simp [resultOk] at h
  · intro x sh h
    rcases reshape_state x sh g with h2 | ⟨sh2, h2⟩
    · exact h2
    · rw [h2] at h; simp [resultOk] at h
  · intro x dims h
    rcases permute_state x dims g with h2 | ⟨sh2, h2⟩
    · exact h2
    · rw [h2] at h; simp [resultOk] at h

/-- Witness for C1 (amended): a failing primitive `BinaryOp` insertion
(broadcasting `[2,3]` against `[4]`) leaves the arena untouched. -/
theorem primitive_error_leaves_arena_witness :
    resultOk (AddBinary BinaryOpType.ADD 0 1 cexG) = false ∧
    (AddBinary BinaryOpType.ADD 0 1 cexG).2 = cexG :=
  ⟨rfl, (primitive_error_leaves_arena cexG).2.1 BinaryOpType.ADD 0 1 rfl⟩

theorem mapM_fixDim_mem {n : Int} :
    ∀ {dims fixed : List Int},
      dims.mapM (fun d => FixDim d n) = Except.ok fixed →
      ∀ v ∈ fixed, ∃ d, FixDim d n = Except.ok v := by
  intro dims
  induction dims with
  | nil =>
      intro fixed h v hv
      rw [List.mapM_nil] at h
      simp only [pure, Except.pure, Except.ok.injEq] at h
      subst h
      cases hv
  | cons a l ih =>
      intro fixed h v hv
      rw [List.mapM_cons] at h
      cases ha : FixDim a n with
      | error e =>
          rw [ha] at h
          have h2 : (Except.error e : Except String (List Int)) = Except.ok fixed := h
          exact Except.noConfusion h2
      | ok b =>
          rw [ha] at h
          cases hl : l.mapM (fun d => FixDim d n) with
          | error e =>
              have hl2 : List.mapM.loop (fun d => FixDim d n) l [] = Except.error e := hl
              first
              | rw [hl2] at h
              | rw [hl] at h
              have h2 : (Except.error e : Except String (List Int)) = Except.ok fixed := h
              exact Except.noConfusion h2
          | ok bs =>
              have hl2 : List.mapM.loop (fun d => FixDim d n) l [] = Except.ok bs := hl
              first
              | rw [hl2] at h
              | rw [hl] at h
              have h2 : Except.ok (b :: bs) = Except.ok fixed := h
              have h3 : b :: bs = fixed := by injection h2
              subst h3
              rcases List.mem_cons.mp hv with hv2 | hv2
              · subst hv2; exact ⟨a, ha⟩
              · exact ih hl v hv2

theorem fixDim_cast_ok_bounds {d v : Int} {r : Nat}
    (h : FixDim d (r : Int) = Except.ok v) : 0 ≤ v ∧ v < (r : Int) := by
  have hr : 1 ≤ r := by
    by_contra hc
    have hr0 : r = 0 := by omega
    subst hr0
    have hz : ((0 : Nat) : Int) = 0 := rfl
    rw [hz] at h
    have he : FixDim d 0 = Except.error "division by zero in FixDim" := rfl
    rw [he] at h
    exact Except.noConfusion h
  rw [fixDim_pos_eq_emod d r hr] at h
  have hv : d % (r : Int) = v := by
    injection h
  subst hv
  have hne : (r : Int) ≠ 0 := by
    have : (1 : Int) ≤ (r : Int) := by exact_mod_cast hr
    omega
  have hpos : (0 : Int) < (r : Int) := by
    have : (1 : Int) ≤ (r : Int) := by exact_mod_cast hr
    omega
  exact ⟨Int.emod_nonneg d hne, Int.emod_lt_of_pos d hpos⟩

theorem WrapInReduction_success (t : ReduceOpType) (x : Nat) (dims : Dims)
    (kd : Bool) (g : Graph)
    (h : resultOk (WrapInReduction t x dims kd g) = true) :
    ∃ nx fixed sh,
      getNode x g = Except.ok nx ∧
      dims.mapM (fun d => FixDim d (nx.shape.length : Int)) = Except.ok fixed ∧
      (WrapInReduction t x dims kd g).2.nodes[g.nodes.length]? =
        some { u := NodeU.reduceOp t x (fixed.insertionSort (fun a b => a ≤ b)) kd,
               shape := sh, strides := ComputeStrides sh } := by
  cases h1 : getNode x g with
  | error e =>
      rw [show WrapInReduction t x dims kd g = (Except.error e, g) by
        simp [WrapInReduction, h1]] at h
      simp [resultOk] at h
  | ok nx =>
      cases h2 : dims.mapM (fun d => FixDim d (nx.shape.length : Int)) with
      | error e =>
          have h2b := h2
          simp only [List.mapM] at h2b
          rw [show WrapInReduction t x dims kd g = (Except.error e, g) by
            simp [WrapInReduction, h1, h2b]] at h
          simp [resultOk] at h
      | ok fixed =>
          have h2b := h2
          simp only [List.mapM] at h2b
          cases h3 : ComputeReducedShape nx.shape
              (fixed.insertionSort (fun a b => a ≤ b)) kd with
          | error e =>
              rw [show WrapInReduction t x dims kd g = (Except.error e, g) by
                simp [WrapInReduction, AddReduce, h1, h2b, h3]] at h
              simp [resultOk] at h
          | ok sh =>
              refine ⟨nx, fixed, sh, rfl, h2, ?_⟩
              rw [show (WrapInReduction t x dims kd g).2 =
                  { g with nodes := g.nodes ++
                      [{ u := NodeU.reduceOp t x
                            (fixed.insertionSort (fun a b => a ≤ b)) kd,
                         shape := sh, strides := ComputeStrides sh }] } by
                simp [WrapInReduction, AddReduce, h1, h2b, h3, AddNode]]
              exact List.getElem?_concat_length _ _

/-- C4 amended: every `ReduceOp` constructed through the `sum`/`max` entry
points stores a dims list that is sorted ascending with every index in
`[0, input rank)` (for any user-supplied dims list, including negative
axes).  Duplicate indices are NOT removed — normalization fixes and sorts
but never deduplicates, so e.g. dims `[0,0]` survive (see the
counterexample). -/
theorem reduce_dims_sorted_inrange (t : ReduceOpType) (x : Nat) (dims : Dims)
    (kd : Bool) (g : Graph)
    (h : resultOk (WrapInReduction t x dims kd g) = true) :
    ∃ nx d2 sh,
      getNode x g = Except.ok nx ∧
      (WrapInReduction t x dims kd g).2.nodes[g.nodes.length]? =
        some { u := NodeU.reduceOp t x d2 kd, shape := sh,
               strides := ComputeStrides sh } ∧
      List.Sorted (fun a b => a ≤ b) d2 ∧
      ∀ v ∈ d2, 0 ≤ v ∧ v < (nx.shape.length : Int) := by
  obtain ⟨nx, fixed, sh, hget, hmap, hnode⟩ :=
    WrapInReduction_success t x dims kd g h
  refine ⟨nx, fixed.insertionSort (fun a b => a ≤ b), sh, hget, hnode,
    List.sorted_insertionSort _ _, ?_⟩
  intro v hv
  have hv2 : v ∈ fixed := (List.perm_insertionSort _ fixed).mem_iff.mp hv
  obtain ⟨d, hd⟩ := mapM_fixDim_mem hmap v hv2
  exact fixDim_cast_ok_bounds hd

/-- Witness for C4 (amended): `sum` along axis `-1` of the `[2,3]` input in
`wG` produces a `ReduceOp` whose dims are sorted and in range. -/
theorem reduce_dims_sorted_inrange_witness :
    resultOk (WrapInReduction ReduceOpType.SUM 0 [-1] false wG) = true ∧
    ∃ nx d2 sh,
      getNode 0 wG = Except.ok nx ∧
      (WrapInReduction ReduceOpType.SUM 0 [-1] false wG).2.nodes[wG.nodes.length]? =
        some { u := NodeU.reduceOp ReduceOpType.SUM 0 d2 false, shape := sh,
               strides := ComputeStrides sh } ∧
      List.Sorted (fun a b => a ≤ b) d2 ∧
      ∀ v ∈ d2, 0 ≤ v ∧ v < (nx.shape.length : Int) :=
  ⟨rfl, reduce_dims_sorted_inrange ReduceOpType.SUM 0 [-1] false wG rfl⟩

end Gigagrad
